import Mathlib

/-!
Verification of the greyhound-racing crawl engine against its specification.

The development shallowly embeds the core of the repository:

* `RaceCardExtractor._iter_dates_inclusive` and the date normalisation in
  `RaceCardExtractor.extract_race_data` (src/src/extractors/race_card_extractor.py).
  Python `datetime.date` values are embedded as their proleptic-Gregorian
  ordinals (`Nat`), which is exactly how Python orders dates and how
  `timedelta(days=1)` acts on them; `strptime`/`strftime` are the bijection
  between the `YYYY-MM-DD` strings and those ordinals and are not re-modelled.
* the driver lifecycle of `RaceCardExtractor.extract_race_data`
  (try / except Exception / finally with `driver.quit()`).
* the crawl loop `RaceCardExtractor._extract_from_race_cards` together with
  `_check_for_duplicates` and `_retry_with_cache_bust`, as an indexed fold
  over the race-target list.  Page extraction results are supplied by an
  oracle environment, since HTML parsing is an external collaborator.
* the per-key fetch retry loop `DogStatsExtractor._get_dog_stats_with_retry`,
  `_get_dog_stats` and `_adjust_for_blocking`
  (src/src/extractors/dog_stats_extractor.py).  Delays are embedded as
  rationals; `random.uniform` jitter is an oracle.
-/

/-! ### Date iteration (RaceCardExtractor._iter_dates_inclusive) -/

/-- Body of the `while cur <= end` loop of `_iter_dates_inclusive`, with
explicit fuel (the loop performs exactly `e + 1 - cur` iterations). -/
def dateLoop : Nat → Nat → Nat → List Nat
  | 0, _, _ => []
  | fuel + 1, e, cur => if cur ≤ e then cur :: dateLoop fuel e (cur + 1) else []

/-- Embedding of `_iter_dates_inclusive`: parse both bounds, swap them when
`end < start`, then yield every date from `start` to `end` inclusive. -/
def iterDatesInclusive (startDate endDate : Nat) : List Nat :=
  let p := if endDate < startDate then (endDate, startDate) else (startDate, endDate)
  dateLoop (p.2 + 1 - p.1) p.2 p.1

theorem dateLoop_eq_range' (fuel e cur : Nat) (hf : fuel = e + 1 - cur) :
    dateLoop fuel e cur = List.range' cur fuel := by
  induction fuel generalizing cur with
  | zero => rfl
  | succ n ih =>
    have hcur : cur ≤ e := by omega
    have hn : n = e + 1 - (cur + 1) := by omega
    simp [dateLoop, hcur, List.range', ih (cur + 1) hn]

theorem iterDatesInclusive_eq_range' (s e : Nat) (h : s ≤ e) :
    iterDatesInclusive s e = List.range' s (e + 1 - s) := by
  have : ¬ e < s := by omega
  simp only [iterDatesInclusive, this, if_false]
  exact dateLoop_eq_range' _ _ _ rfl

theorem iterDatesInclusive_swap (s e : Nat) :
    iterDatesInclusive s e = iterDatesInclusive e s := by
  rcases Nat.lt_or_ge e s with h | h
  · have h1 : ¬ s < e := by omega
    simp [iterDatesInclusive, h, h1]
  · rcases Nat.eq_or_lt_of_le h with h2 | h2
    · subst h2; rfl
    · have h1 : ¬ e < s := by omega
      simp [iterDatesInclusive, h1, h2]

theorem iterDatesInclusive_count (s e d : Nat) (h : s ≤ e) :
    (iterDatesInclusive s e).count d = if s ≤ d ∧ d ≤ e then 1 else 0 := by
  rw [iterDatesInclusive_eq_range' s e h]
  by_cases hd : s ≤ d ∧ d ≤ e
  · have hmem : d ∈ List.range' s (e + 1 - s) := by
      rw [List.mem_range'_1]
      exact ⟨hd.1, by omega⟩
    rw [if_pos hd]
    exact List.count_eq_one_of_mem (List.nodup_range' s (e + 1 - s)) hmem
  · have hmem : d ∉ List.range' s (e + 1 - s) := by
      rw [List.mem_range'_1]
      omega
    rw [if_neg hd]
    exact List.count_eq_zero_of_not_mem hmem

theorem iterDatesInclusive_chain (s e : Nat) :
    List.Chain' (· < ·) (iterDatesInclusive s e) := by
  have key : ∀ a b : Nat, a ≤ b → List.Chain' (· < ·) (iterDatesInclusive a b) := by
    intro a b hab
    rw [iterDatesInclusive_eq_range' a b hab]
    exact (List.pairwise_lt_range' a (b + 1 - a)).chain'
  rcases Nat.le_total s e with h | h
  · exact key s e h
  · rw [iterDatesInclusive_swap]; exact key e s h

theorem iterDatesInclusive_single (d : Nat) : iterDatesInclusive d d = [d] := by
  rw [iterDatesInclusive_eq_range' d d (Nat.le_refl d)]
  simp

theorem iterDatesInclusive_ne_nil (s e : Nat) : iterDatesInclusive s e ≠ [] := by
  have key : ∀ a b : Nat, a ≤ b → iterDatesInclusive a b ≠ [] := by
    intro a b hab
    rw [iterDatesInclusive_eq_range' a b hab]
    have h1 : b + 1 - a = (b - a) + 1 := by omega
    rw [h1, List.range'_succ]
    exact List.cons_ne_nil _ _
  rcases Nat.le_total s e with h | h
  · exact key s e h
  · rw [iterDatesInclusive_swap]; exact key e s h

/-! ### Date normalisation and driver lifecycle (RaceCardExtractor.extract_race_data)

The historical branch of `extract_race_data` first normalises the two
optional dates (lines 66-73 of race_card_extractor.py): with neither date a
`ValueError` is raised; with only one date the other bound is copied from it.
The whole body runs inside `try ... except Exception: return None` with a
`finally` block that calls `driver.quit()` whenever `self.driver` was set. -/

/-- Normalisation of the optional start/end dates in the historical branch.
`Except.error` is the `raise ValueError(...)` case. -/
def normalizeDates : Option Nat → Option Nat → Except String (Nat × Nat)
  | none, none => .error "historical mode requires start_date and/or end_date (YYYY-MM-DD)"
  | some s, none => .ok (s, s)
  | none, some e => .ok (e, e)
  | some s, some e => .ok (s, e)

/-- How `_setup_driver` can behave: `webdriver.Chrome` itself raises before
`self.driver` is assigned; or the driver is created and the follow-up
`execute_script` raises; or setup completes. -/
inductive SetupOutcome
  | chromeFail
  | scriptFail
  | ok
deriving DecidableEq

/-- Abstract behaviour of the mode-specific body after a successful setup:
it performs some number of navigations and then either returns the assembled
rows or raises. -/
inductive BodyOutcome
  | ret (navs : Nat) (rows : List String)
  | raised (navs : Nat)
deriving DecidableEq

/-- Observable driver events of one `extract_race_data` invocation. -/
inductive DriverEv
  | createDriver
  | navigate
  | quitDriver
deriving DecidableEq

/-- Embedding of `extract_race_data`'s control flow: the `try` block runs
`_setup_driver`, then the mode-specific body (historical mode first checks
the date precondition); `except Exception` converts any raise into a `None`
return; `finally` quits the driver whenever it was assigned.  The returned
`Except` is what the *caller* observes: `.ok none` is a normal `return None`,
`.error` would be an exception propagating out of the call (which the
except-clause makes impossible). -/
def extractRaceData (setup : SetupOutcome) (mode : String)
    (startDate endDate : Option Nat) (body : BodyOutcome) :
    Except String (Option (List String)) × List DriverEv :=
  match setup with
  | .chromeFail =>
    -- the exception fires before self.driver is assigned: caught, no quit
    (.ok none, [])
  | .scriptFail =>
    -- driver assigned, execute_script raises: caught, finally quits
    (.ok none, [.createDriver, .quitDriver])
  | .ok =>
    if mode = "historical" then
      match normalizeDates startDate endDate with
      | .error _ =>
        -- raise ValueError: caught by `except Exception`, finally quits
        (.ok none, [.createDriver, .quitDriver])
      | .ok _ =>
        match body with
        | .ret navs rows =>
          (.ok (some rows), .createDriver :: (List.replicate navs .navigate ++ [.quitDriver]))
        | .raised navs =>
          (.ok none, .createDriver :: (List.replicate navs .navigate ++ [.quitDriver]))
    else
      match body with
      | .ret navs rows =>
        (.ok (some rows), .createDriver :: (List.replicate navs .navigate ++ [.quitDriver]))
      | .raised navs =>
        (.ok none, .createDriver :: (List.replicate navs .navigate ++ [.quitDriver]))

/-- A browser session was created exactly when `webdriver.Chrome` did not
itself fail. -/
def sessionCreated : SetupOutcome → Bool
  | .chromeFail => false
  | _ => true

/-! ### Crawl loop (RaceCardExtractor._extract_from_race_cards)

State per iteration is exactly the three Python locals `current_track`,
`cache_bust_counter` and `all_race_data`, plus an observable event trace.
The runners a page yields (first extraction and the retry extraction of
`_retry_with_cache_bust`) come from an oracle environment indexed by the
loop index, since HTML parsing is an external collaborator. -/

/-- One RunnerRecord, the dictionary built by `_extract_runner_data` /
`_extract_runners_from_result_page`.  `trap` is `none` for the `'TBC'`
placeholder. -/
structure Runner where
  track : String
  raceNumber : String
  raceTime : String
  grade : String
  distance : String
  trap : Option Nat
  dogName : String
  form : String
  spForecast : String
  trainer : String
deriving DecidableEq

/-- One race target produced by the enumerator (`race_card_urls` entries). -/
structure RaceInfo where
  url : String
  track : String
  raceTime : String
  raceNumber : String
deriving DecidableEq

/-- Oracle for what the page extractions yield: `extract i` is the runner
list of the first extraction for target `i`, `retryExtract i` the runner
list of the re-extraction inside `_retry_with_cache_bust`. -/
structure CrawlEnv where
  extract : Nat → List Runner
  retryExtract : Nat → List Runner

/-- The dog-name set of a record list, `{r['Dog_Name'] for r in rs}`. -/
def dogNameSet (rs : List Runner) : Finset String :=
  (rs.map Runner.dogName).toFinset

/-- Embedding of `_check_for_duplicates`: with no accepted records the answer
is `False`; otherwise compare the dog-name set of the last
`min 6 (length)` accepted records with the dog-name set of the new
runners; the Python return value `overlap and len(overlap) > len(current_dogs) * 0.5`
is truthy exactly when the overlap is non-empty and holds more than half of
the current race's distinct dog names. -/
def checkForDuplicates (allRaceData runners : List Runner) : Bool :=
  if allRaceData.length = 0 then false
  else
    let recentRacesCount := min 6 allRaceData.length
    let recentDogs := dogNameSet (allRaceData.drop (allRaceData.length - recentRacesCount))
    let currentDogs := dogNameSet runners
    let overlap := recentDogs ∩ currentDogs
    decide (overlap.Nonempty) && decide (2 * overlap.card > currentDogs.card)

/-- Which of the two `smart_cache_bust` variants ran. -/
inductive BustKind
  | aggressive
  | light
deriving DecidableEq

/-- Observable events of the crawl loop, each tagged with the loop index of
the race target that produced it. -/
inductive CrawlEv
  | bust (k : BustKind) (i : Nat)
  | retryBust (i : Nat)
  | navigate (i : Nat)
  | noRunners (i : Nat)
  | accepted (i : Nat) (viaRetry : Bool)
  | skipped (i : Nat)
deriving DecidableEq

/-- The loop index an event is tagged with. -/
def CrawlEv.tag : CrawlEv → Nat
  | .bust _ i => i
  | .retryBust i => i
  | .navigate i => i
  | .noRunners i => i
  | .accepted i _ => i
  | .skipped i => i

/-- The crawl-session state: the locals of `_extract_from_race_cards`
(`current_track`, `cache_bust_counter`, `all_race_data`) plus the event
trace. -/
structure CrawlState where
  currentTrack : Option String
  cacheBustCount : Nat
  records : List Runner
  events : List CrawlEv
deriving DecidableEq

def crawlInit : CrawlState := ⟨none, 0, [], []⟩

/-- One iteration of the `for i, race_info in enumerate(race_card_urls)`
loop: cache-bust policy, navigation, extraction, duplicate detection, and
either direct acceptance, one retry via `_retry_with_cache_bust`, or a skip.
The aggressive bust inside `_retry_with_cache_bust` emits `retryBust` and,
exactly as in the source, does not touch `cache_bust_counter`. -/
def crawlStep (env : CrawlEnv) (st : CrawlState) (i : Nat) (ri : RaceInfo) : CrawlState :=
  let st1 :=
    if st.currentTrack ≠ some ri.track then
      { st with currentTrack := some ri.track,
                cacheBustCount := st.cacheBustCount + 1,
                events := st.events ++ [CrawlEv.bust .aggressive i] }
    else if i % 8 = 0 then
      { st with cacheBustCount := st.cacheBustCount + 1,
                events := st.events ++ [CrawlEv.bust .light i] }
    else st
  let st2 := { st1 with events := st1.events ++ [CrawlEv.navigate i] }
  let runners := env.extract i
  if runners.isEmpty then
    { st2 with events := st2.events ++ [CrawlEv.noRunners i] }
  else if checkForDuplicates st2.records runners then
    let st3 := { st2 with events := st2.events ++ [CrawlEv.retryBust i] }
    let retried := env.retryExtract i
    if retried.isEmpty then
      { st3 with events := st3.events ++ [CrawlEv.skipped i] }
    else
      { st3 with records := st3.records ++ retried,
                 events := st3.events ++ [CrawlEv.accepted i true] }
  else
    { st2 with records := st2.records ++ runners,
               events := st2.events ++ [CrawlEv.accepted i false] }

/-- The enumerated fold of the crawl loop, starting at index `i`. -/
def crawlGo (env : CrawlEnv) : Nat → CrawlState → List RaceInfo → CrawlState
  | _, st, [] => st
  | i, st, ri :: rest => crawlGo env (i + 1) (crawlStep env st i ri) rest

/-- A whole crawl over a race-target queue. -/
def crawlRun (env : CrawlEnv) (targets : List RaceInfo) : CrawlState :=
  crawlGo env 0 crawlInit targets

/-- The crawl state just before target `i` is processed. -/
def stateBefore (env : CrawlEnv) (targets : List RaceInfo) (i : Nat) : CrawlState :=
  crawlGo env 0 crawlInit (targets.take i)

/-- The events one loop iteration appends, as an explicit list. -/
def stepEvs (env : CrawlEnv) (st : CrawlState) (i : Nat) (ri : RaceInfo) : List CrawlEv :=
  let bustEvs : List CrawlEv :=
    if st.currentTrack ≠ some ri.track then [CrawlEv.bust .aggressive i]
    else if i % 8 = 0 then [CrawlEv.bust .light i]
    else []
  let runners := env.extract i
  let tailEvs : List CrawlEv :=
    if runners.isEmpty then [CrawlEv.noRunners i]
    else if checkForDuplicates st.records runners then
      CrawlEv.retryBust i ::
        (if (env.retryExtract i).isEmpty then [CrawlEv.skipped i]
         else [CrawlEv.accepted i true])
    else [CrawlEv.accepted i false]
  bustEvs ++ CrawlEv.navigate i :: tailEvs

theorem crawlStep_events (env : CrawlEnv) (st : CrawlState) (i : Nat) (ri : RaceInfo) :
    (crawlStep env st i ri).events = st.events ++ stepEvs env st i ri := by
  unfold crawlStep stepEvs
  by_cases h1 : st.currentTrack ≠ some ri.track <;>
    by_cases h2 : i % 8 = 0 <;>
      by_cases h3 : (env.extract i).isEmpty <;>
        by_cases h4 : checkForDuplicates st.records (env.extract i) <;>
          by_cases h5 : (env.retryExtract i).isEmpty <;>
            simp [h1, h2, h3, h4, h5]

theorem stepEvs_tag (env : CrawlEnv) (st : CrawlState) (i : Nat) (ri : RaceInfo) :
    ∀ e ∈ stepEvs env st i ri, e.tag = i := by
  intro e he
  unfold stepEvs at he
  by_cases h1 : st.currentTrack ≠ some ri.track <;>
    by_cases h2 : i % 8 = 0 <;>
      by_cases h3 : (env.extract i).isEmpty <;>
        by_cases h4 : checkForDuplicates st.records (env.extract i) <;>
          by_cases h5 : (env.retryExtract i).isEmpty <;>
            simp [h1, h2, h3, h4, h5] at he <;>
              rcases he with rfl | rfl | rfl | rfl <;> rfl

/-- The records an iteration appends: nothing when the page had no runners;
the retry extraction when the duplicate check flagged the race (or nothing
when the retry also came back empty); otherwise the extracted runners. -/
def stepRecs (env : CrawlEnv) (st : CrawlState) (i : Nat) : List Runner :=
  let runners := env.extract i
  if runners.isEmpty then []
  else if checkForDuplicates st.records runners then
    (if (env.retryExtract i).isEmpty then [] else env.retryExtract i)
  else runners

theorem crawlStep_records (env : CrawlEnv) (st : CrawlState) (i : Nat) (ri : RaceInfo) :
    (crawlStep env st i ri).records = st.records ++ stepRecs env st i := by
  unfold crawlStep stepRecs
  by_cases h1 : st.currentTrack ≠ some ri.track <;>
    by_cases h2 : i % 8 = 0 <;>
      by_cases h3 : (env.extract i).isEmpty <;>
        by_cases h4 : checkForDuplicates st.records (env.extract i) <;>
          by_cases h5 : (env.retryExtract i).isEmpty <;>
            simp [h1, h2, h3, h4, h5]

theorem crawlStep_counter (env : CrawlEnv) (st : CrawlState) (i : Nat) (ri : RaceInfo) :
    (crawlStep env st i ri).cacheBustCount =
      st.cacheBustCount +
        (if st.currentTrack ≠ some ri.track ∨ i % 8 = 0 then 1 else 0) := by
  unfold crawlStep
  by_cases h1 : st.currentTrack ≠ some ri.track <;>
    by_cases h2 : i % 8 = 0 <;>
      by_cases h3 : (env.extract i).isEmpty <;>
        by_cases h4 : checkForDuplicates st.records (env.extract i) <;>
          by_cases h5 : (env.retryExtract i).isEmpty <;>
            simp [h1, h2, h3, h4, h5]

theorem crawlGo_append (env : CrawlEnv) (l1 l2 : List RaceInfo) :
    ∀ (i : Nat) (st : CrawlState),
      crawlGo env i st (l1 ++ l2) = crawlGo env (i + l1.length) (crawlGo env i st l1) l2 := by
  induction l1 with
  | nil => intro i st; simp [crawlGo]
  | cons a rest ih =>
    intro i st
    simp only [List.cons_append, crawlGo, List.length_cons]
    rw [show rest.append l2 = rest ++ l2 from rfl, ih]
    congr 1
    omega

theorem crawlGo_events_ext (env : CrawlEnv) (l : List RaceInfo) :
    ∀ (i : Nat) (st : CrawlState), ∃ es,
      (crawlGo env i st l).events = st.events ++ es ∧
        ∀ e ∈ es, i ≤ e.tag ∧ e.tag < i + l.length := by
  induction l with
  | nil => intro i st; exact ⟨[], by simp [crawlGo]⟩
  | cons a rest ih =>
    intro i st
    obtain ⟨es, hes, htag⟩ := ih (i + 1) (crawlStep env st i a)
    refine ⟨stepEvs env st i a ++ es, ?_, ?_⟩
    · simp only [crawlGo, hes, crawlStep_events, List.append_assoc]
    · intro e he
      rcases List.mem_append.mp he with h | h
      · have := stepEvs_tag env st i a e h
        simp [this]
      · have := htag e h
        simp only [List.length_cons]
        omega

theorem stateBefore_events_lt (env : CrawlEnv) (targets : List RaceInfo) (i : Nat) :
    ∀ e ∈ (stateBefore env targets i).events, e.tag < i := by
  intro e he
  obtain ⟨es, hes, htag⟩ := crawlGo_events_ext env (targets.take i) 0 crawlInit
  rw [stateBefore, hes] at he
  simp only [crawlInit, List.nil_append] at he
  have := (htag e he).2
  have hlen : (targets.take i).length ≤ i := by
    rw [List.length_take]; omega
  omega

/-- Decomposition of a whole crawl's event trace around the iteration for
target `i`: everything before has a smaller tag, everything after a larger
one. -/
theorem crawlRun_events_split (env : CrawlEnv) (targets : List RaceInfo) (i : Nat)
    (h : i < targets.length) :
    ∃ post,
      (crawlRun env targets).events =
        (stateBefore env targets i).events ++
          stepEvs env (stateBefore env targets i) i (targets.get ⟨i, h⟩) ++ post ∧
        ∀ e ∈ post, i < e.tag := by
  have hsplit : targets = targets.take i ++ (targets.get ⟨i, h⟩ :: targets.drop (i + 1)) := by
    conv_lhs => rw [← List.take_append_drop i targets]
    rw [List.drop_eq_getElem_cons h]
    rfl
  have hlen : (targets.take i).length = i := by
    rw [List.length_take]; omega
  have hrun : crawlRun env targets =
      crawlGo env (i + 1)
        (crawlStep env (stateBefore env targets i) i (targets.get ⟨i, h⟩))
        (targets.drop (i + 1)) := by
    rw [crawlRun]
    conv_lhs => rw [hsplit]
    rw [crawlGo_append]
    simp only [hlen, Nat.zero_add]
    rfl
  obtain ⟨es, hes, htag⟩ :=
    crawlGo_events_ext env (targets.drop (i + 1)) (i + 1)
      (crawlStep env (stateBefore env targets i) i (targets.get ⟨i, h⟩))
  refine ⟨es, ?_, ?_⟩
  · rw [hrun, hes, crawlStep_events, List.append_assoc]
  · intro e he
    have := (htag e he).1
    omega

/-- Counting an event tagged `i` over the whole crawl only sees the events of
iteration `i`. -/
theorem crawlRun_count_tag (env : CrawlEnv) (targets : List RaceInfo) (i : Nat)
    (h : i < targets.length) (e : CrawlEv) (he : e.tag = i) :
    (crawlRun env targets).events.count e =
      (stepEvs env (stateBefore env targets i) i (targets.get ⟨i, h⟩)).count e := by
  obtain ⟨post, heq, hpost⟩ := crawlRun_events_split env targets i h
  rw [heq, List.count_append, List.count_append]
  have h1 : e ∉ (stateBefore env targets i).events := by
    intro hmem
    have := stateBefore_events_lt env targets i e hmem
    omega
  have h2 : e ∉ post := by
    intro hmem
    have := hpost e hmem
    omega
  rw [List.count_eq_zero_of_not_mem h1, List.count_eq_zero_of_not_mem h2]
  omega

/-- Membership of an event tagged `i` in the whole crawl's trace reduces to
the events of iteration `i`. -/
theorem crawlRun_mem_tag (env : CrawlEnv) (targets : List RaceInfo) (i : Nat)
    (h : i < targets.length) (e : CrawlEv) (he : e.tag = i) :
    (e ∈ (crawlRun env targets).events ↔
      e ∈ stepEvs env (stateBefore env targets i) i (targets.get ⟨i, h⟩)) := by
  obtain ⟨post, heq, hpost⟩ := crawlRun_events_split env targets i h
  rw [heq]
  simp only [List.mem_append]
  constructor
  · rintro ((h1 | h1) | h1)
    · exact absurd (stateBefore_events_lt env targets i e h1) (by omega)
    · exact h1
    · exact absurd (hpost e h1) (by omega)
  · intro h1
    exact Or.inl (Or.inr h1)

/-! ### The staleness heuristic, stated the way the specification words it -/

/-- The specification's staleness condition: the intersection of the new
race's dog-name set with the dog-name set of the last up-to-6 previously
accepted runner records is non-empty and holds more than 50% of the new
race's distinct dog names. -/
def specStaleFlag (accepted newRunners : List Runner) : Prop :=
  let windowDogs := dogNameSet (accepted.drop (accepted.length - 6))
  let newDogs := dogNameSet newRunners
  (windowDogs ∩ newDogs).Nonempty ∧ 2 * (windowDogs ∩ newDogs).card > newDogs.card

instance (accepted newRunners : List Runner) :
    Decidable (specStaleFlag accepted newRunners) := by
  unfold specStaleFlag; infer_instance

theorem checkForDuplicates_nil (runners : List Runner) :
    checkForDuplicates [] runners = false := rfl

theorem checkForDuplicates_iff (accepted runners : List Runner) (h : accepted ≠ []) :
    checkForDuplicates accepted runners = true ↔ specStaleFlag accepted runners := by
  have hlen : accepted.length ≠ 0 := by
    intro h0; exact h (List.eq_nil_of_length_eq_zero h0)
  have hdrop : accepted.length - min 6 accepted.length = accepted.length - 6 := by
    omega
  simp only [checkForDuplicates, specStaleFlag, hlen, if_false, hdrop,
    Bool.and_eq_true, decide_eq_true_eq]

theorem specStaleFlag_nil_right (accepted : List Runner) :
    ¬ specStaleFlag accepted [] := by
  simp [specStaleFlag, dogNameSet]

/-- The events of one iteration contain at most one staleness retry, and
exactly one precisely when the new extraction is non-empty and the
duplicate check flags it. -/
theorem stepEvs_count_retryBust (env : CrawlEnv) (st : CrawlState) (i : Nat) (ri : RaceInfo) :
    (stepEvs env st i ri).count (CrawlEv.retryBust i) =
      if (env.extract i).isEmpty = false ∧ checkForDuplicates st.records (env.extract i) = true
      then 1 else 0 := by
  unfold stepEvs
  by_cases h1 : st.currentTrack ≠ some ri.track <;>
    by_cases h2 : i % 8 = 0 <;>
      by_cases h3 : (env.extract i).isEmpty <;>
        by_cases h4 : checkForDuplicates st.records (env.extract i) <;>
          by_cases h5 : (env.retryExtract i).isEmpty <;>
            simp [h1, h2, h3, h4, h5, List.count_append, List.count_cons]

/-- C1: for every race processed by the crawl loop where at least one runner
record has already been accepted, the newly extracted runners are flagged as
a suspected stale-cache read (and hence retried, exactly once) if and only if
the intersection of the new race's dog-name set with the dog-name set of the
last up-to-6 previously accepted runner records is non-empty and its size
exceeds 50% of the new race's dog-name count; and no race is ever retried
more than once. -/
theorem crawl_staleness_retry_once (env : CrawlEnv) (targets : List RaceInfo) (i : Nat)
    (h : i < targets.length)
    (hacc : (stateBefore env targets i).records ≠ []) :
    ((crawlRun env targets).events.count (CrawlEv.retryBust i) =
      if specStaleFlag (stateBefore env targets i).records (env.extract i) then 1 else 0) ∧
    (crawlRun env targets).events.count (CrawlEv.retryBust i) ≤ 1 := by
  have hcount := crawlRun_count_tag env targets i h (CrawlEv.retryBust i) rfl
  rw [hcount, stepEvs_count_retryBust]
  constructor
  · by_cases hempty : (env.extract i).isEmpty
    · have hnil : env.extract i = [] := List.isEmpty_iff.mp hempty
      have hspec : ¬ specStaleFlag (stateBefore env targets i).records (env.extract i) := by
        rw [hnil]; exact specStaleFlag_nil_right _
      simp [hempty, hspec]
    · have hiff := checkForDuplicates_iff (stateBefore env targets i).records (env.extract i) hacc
      by_cases hflag : specStaleFlag (stateBefore env targets i).records (env.extract i)
      · have : checkForDuplicates (stateBefore env targets i).records (env.extract i) = true :=
          hiff.mpr hflag
        simp [hempty, this, hflag]
      · have : checkForDuplicates (stateBefore env targets i).records (env.extract i) ≠ true := by
          intro hc; exact hflag (hiff.mp hc)
        simp only [Bool.not_eq_true] at this
        simp [hempty, this, hflag]
  · split <;> omega

/-- Concrete crawl used as a witness: two targets at the same track; the
first race yields dogs Alpha and Beta, the second race's extraction comes
back with Alpha only (a stale overlap of 100%), and the retry extraction
comes back empty. -/
def runnerW (dog : String) : Runner :=
  ⟨"Hove", "1", "11:00", "A4", "480m", some 1, dog, "N/A", "5/2", "Smith"⟩

def envW : CrawlEnv where
  extract := fun i =>
    match i with
    | 0 => [runnerW "Alpha", runnerW "Beta"]
    | _ => [runnerW "Alpha"]
  retryExtract := fun _ => []

def targetsW : List RaceInfo :=
  [⟨"#card/1", "Hove", "11:00", "1"⟩, ⟨"#card/2", "Hove", "11:05", "2"⟩]

theorem crawl_staleness_retry_once_witness :
    (stateBefore envW targetsW 1).records ≠ [] ∧
    ((crawlRun envW targetsW).events.count (CrawlEv.retryBust 1) =
      if specStaleFlag (stateBefore envW targetsW 1).records (envW.extract 1) then 1 else 0) ∧
    (crawlRun envW targetsW).events.count (CrawlEv.retryBust 1) ≤ 1 := by
  refine ⟨by decide, ?_⟩
  exact crawl_staleness_retry_once envW targetsW 1 (by decide) (by decide)

/-! ### Duplicate keys in the accepted record list (dedup "invariant") -/

/-- The natural dedup key named by the specification:
(track, raceNumber, raceTime, dogName). -/
def runnerKey (r : Runner) : String × String × String × String :=
  (r.track, r.raceNumber, r.raceTime, r.dogName)

theorem specStaleFlag_nil_left (runners : List Runner) :
    ¬ specStaleFlag [] runners := by
  simp [specStaleFlag, dogNameSet]

theorem stepEvs_mem_acceptedDirect (env : CrawlEnv) (st : CrawlState) (i : Nat) (ri : RaceInfo) :
    CrawlEv.accepted i false ∈ stepEvs env st i ri ↔
      ((env.extract i).isEmpty = false ∧
        checkForDuplicates st.records (env.extract i) = false) := by
  unfold stepEvs
  by_cases h1 : st.currentTrack ≠ some ri.track <;>
    by_cases h2 : i % 8 = 0 <;>
      by_cases h3 : (env.extract i).isEmpty <;>
        by_cases h4 : checkForDuplicates st.records (env.extract i) <;>
          by_cases h5 : (env.retryExtract i).isEmpty <;>
            simp [h1, h2, h3, h4, h5]

/-- Concrete crawl refuting the dedup invariant: the same race is enumerated
twice (the results-meeting enumerator does not dedup race links); the second
extraction shares only the dog Alpha with the first (an overlap of 1 out of
3 distinct names, which is below the 50% threshold), so it is accepted
directly and the full key (Hove, 1, 11:00, Alpha) ends up twice in the final
record list. -/
def envC2 : CrawlEnv where
  extract := fun i =>
    match i with
    | 0 => [runnerW "Alpha", runnerW "Beta", runnerW "Gamma"]
    | _ => [runnerW "Alpha", runnerW "Delta", runnerW "Epsilon"]
  retryExtract := fun _ => []

def targetsC2 : List RaceInfo :=
  [⟨"#card/1", "Hove", "11:00", "1"⟩, ⟨"#card/1b", "Hove", "11:00", "1"⟩]

/-- C2 counterexample: the final accepted record list of the concrete crawl
above contains two records with the same (track, raceNumber, raceTime,
dogName) key, so the claimed dedup invariant is false. -/
theorem crawl_dedup_counterexample :
    (crawlRun envC2 targetsC2).records.count (runnerW "Alpha") = 2 ∧
    ¬ (crawlRun envC2 targetsC2).records.Pairwise
        (fun a b => runnerKey a ≠ runnerKey b) := by
  constructor
  · decide
  · decide

/-- C2 amended: the crawl does not enforce key uniqueness; what it does
guarantee is that a non-empty extraction is accepted directly (without a
staleness retry) only when the specification's staleness condition fails,
i.e. when the overlap with the window of the last up-to-6 previously
accepted records is empty or at most 50% of the new race's distinct
dog-name count. -/
theorem crawl_accept_direct_not_stale (env : CrawlEnv) (targets : List RaceInfo) (i : Nat)
    (h : i < targets.length)
    (hmem : CrawlEv.accepted i false ∈ (crawlRun env targets).events) :
    ¬ specStaleFlag (stateBefore env targets i).records (env.extract i) := by
  have hmem' := (crawlRun_mem_tag env targets i h (CrawlEv.accepted i false) rfl).mp hmem
  obtain ⟨hne, hchk⟩ := (stepEvs_mem_acceptedDirect env (stateBefore env targets i) i
    (targets.get ⟨i, h⟩)).mp hmem'
  by_cases h0 : (stateBefore env targets i).records = []
  · rw [h0]; exact specStaleFlag_nil_left _
  · intro hspec
    have := (checkForDuplicates_iff _ _ h0).mpr hspec
    rw [hchk] at this
    exact Bool.false_ne_true this

theorem crawl_accept_direct_not_stale_witness :
    (CrawlEv.accepted 0 false ∈ (crawlRun envW targetsW).events) ∧
    ¬ specStaleFlag (stateBefore envW targetsW 0).records (envW.extract 0) :=
  ⟨by decide, crawl_accept_direct_not_stale envW targetsW 0 (by decide) (by decide)⟩

/-! ### The cache-bust counter -/

/-- Number of bust invocations performed by the main loop itself (the two
`smart_cache_bust` calls of `_extract_from_race_cards`); exactly these
increment `cache_bust_counter`. -/
def mainBusts (evs : List CrawlEv) : Nat :=
  evs.countP fun e => match e with | .bust _ _ => true | _ => false

/-- Number of all `smart_cache_bust` invocations, including the aggressive
bust performed inside `_retry_with_cache_bust` on a staleness retry. -/
def allBustInvocations (evs : List CrawlEv) : Nat :=
  evs.countP fun e =>
    match e with
    | .bust _ _ => true
    | .retryBust _ => true
    | _ => false

theorem crawlStep_counter_mono (env : CrawlEnv) (st : CrawlState) (i : Nat) (ri : RaceInfo) :
    st.cacheBustCount ≤ (crawlStep env st i ri).cacheBustCount := by
  rw [crawlStep_counter]
  omega

theorem crawlGo_counter_mono (env : CrawlEnv) (l : List RaceInfo) :
    ∀ (i : Nat) (st : CrawlState),
      st.cacheBustCount ≤ (crawlGo env i st l).cacheBustCount := by
  induction l with
  | nil => intro i st; exact Nat.le_refl _
  | cons a rest ih =>
    intro i st
    exact Nat.le_trans (crawlStep_counter_mono env st i a) (ih (i + 1) _)

theorem stepEvs_mainBusts (env : CrawlEnv) (st : CrawlState) (i : Nat) (ri : RaceInfo) :
    mainBusts (stepEvs env st i ri) =
      if st.currentTrack ≠ some ri.track ∨ i % 8 = 0 then 1 else 0 := by
  unfold stepEvs mainBusts
  by_cases h1 : st.currentTrack ≠ some ri.track <;>
    by_cases h2 : i % 8 = 0 <;>
      by_cases h3 : (env.extract i).isEmpty <;>
        by_cases h4 : checkForDuplicates st.records (env.extract i) <;>
          by_cases h5 : (env.retryExtract i).isEmpty <;>
            simp [h1, h2, h3, h4, h5, List.countP_append, List.countP_cons]

theorem crawlGo_counter_eq (env : CrawlEnv) (l : List RaceInfo) :
    ∀ (i : Nat) (st : CrawlState),
      st.cacheBustCount = mainBusts st.events →
      (crawlGo env i st l).cacheBustCount = mainBusts (crawlGo env i st l).events := by
  induction l with
  | nil => intro i st h; exact h
  | cons a rest ih =>
    intro i st h
    refine ih (i + 1) _ ?_
    rw [crawlStep_counter, crawlStep_events]
    unfold mainBusts at h ⊢
    rw [List.countP_append, ← h]
    have := stepEvs_mainBusts env st i a
    unfold mainBusts at this
    rw [this]

/-- C6 amended: the cache-bust counter is monotonically non-decreasing over
the crawl and equals the number of bust invocations performed by the main
loop (track-change aggressive busts and every-8th-index light busts).  The
aggressive bust performed inside a staleness retry does not increment it
(see the counterexample below). -/
theorem crawl_cache_bust_counter (env : CrawlEnv) (targets : List RaceInfo) :
    (∀ i j : Nat, i ≤ j →
      (stateBefore env targets i).cacheBustCount ≤
        (stateBefore env targets j).cacheBustCount) ∧
    (crawlRun env targets).cacheBustCount = mainBusts (crawlRun env targets).events := by
  constructor
  · intro i j hij
    have htake : (targets.take j).take i = targets.take i := by
      rw [List.take_take]
      congr 1
      omega
    have hsplit : targets.take j = targets.take i ++ (targets.take j).drop i := by
      conv_lhs => rw [← List.take_append_drop i (targets.take j)]
      rw [htake]
    rw [stateBefore, stateBefore, hsplit, crawlGo_append]
    exact crawlGo_counter_mono env _ _ _
  · exact crawlGo_counter_eq env targets 0 crawlInit rfl

theorem crawl_cache_bust_counter_witness :
    (stateBefore envW targetsW 1).cacheBustCount ≤
      (stateBefore envW targetsW 2).cacheBustCount ∧
    (crawlRun envW targetsW).cacheBustCount = mainBusts (crawlRun envW targetsW).events :=
  ⟨(crawl_cache_bust_counter envW targetsW).1 1 2 (by decide),
    (crawl_cache_bust_counter envW targetsW).2⟩

/-- C6 counterexample: in the concrete crawl `envW`/`targetsW` two bust
invocations happen (the aggressive bust on the first track switch and the
aggressive bust of the staleness retry for target 1), yet the counter ends
at 1 — the retry bust does not increment it, contradicting the claim that
the counter increases by exactly 1 on *every* bust invocation including the
staleness-retry one. -/
theorem crawl_cache_bust_counterexample :
    allBustInvocations (crawlRun envW targetsW).events = 2 ∧
    (crawlRun envW targetsW).cacheBustCount = 1 := by
  constructor
  · decide
  · decide

/-! ### The cache-bust policy per navigation -/

theorem stepEvs_mem_bustAggressive (env : CrawlEnv) (st : CrawlState) (i : Nat) (ri : RaceInfo) :
    CrawlEv.bust .aggressive i ∈ stepEvs env st i ri ↔
      st.currentTrack ≠ some ri.track := by
  unfold stepEvs
  by_cases h1 : st.currentTrack ≠ some ri.track <;>
    by_cases h2 : i % 8 = 0 <;>
      by_cases h3 : (env.extract i).isEmpty <;>
        by_cases h4 : checkForDuplicates st.records (env.extract i) <;>
          by_cases h5 : (env.retryExtract i).isEmpty <;>
            simp [h1, h2, h3, h4, h5]

theorem stepEvs_mem_bustLight (env : CrawlEnv) (st : CrawlState) (i : Nat) (ri : RaceInfo) :
    CrawlEv.bust .light i ∈ stepEvs env st i ri ↔
      (st.currentTrack = some ri.track ∧ i % 8 = 0) := by
  unfold stepEvs
  by_cases h1 : st.currentTrack ≠ some ri.track <;>
    by_cases h2 : i % 8 = 0 <;>
      by_cases h3 : (env.extract i).isEmpty <;>
        by_cases h4 : checkForDuplicates st.records (env.extract i) <;>
          by_cases h5 : (env.retryExtract i).isEmpty <;>
            simp [h1, h2, h3, h4, h5]
  all_goals tauto

/-- C7 amended: for every race target, an aggressive bust is performed
exactly when the target's track differs from the current track; a light bust
is performed exactly when the track is unchanged and the overall 0-based
loop index is a multiple of 8 (i.e. the schedule counts all race targets,
via `i % 8 == 0`, not same-track navigations). -/
theorem crawl_cache_bust_policy (env : CrawlEnv) (targets : List RaceInfo) (i : Nat)
    (h : i < targets.length) :
    (CrawlEv.bust .aggressive i ∈ (crawlRun env targets).events ↔
      (stateBefore env targets i).currentTrack ≠ some (targets.get ⟨i, h⟩).track) ∧
    (CrawlEv.bust .light i ∈ (crawlRun env targets).events ↔
      ((stateBefore env targets i).currentTrack = some (targets.get ⟨i, h⟩).track ∧
        i % 8 = 0)) := by
  constructor
  · rw [crawlRun_mem_tag env targets i h (CrawlEv.bust .aggressive i) rfl]
    exact stepEvs_mem_bustAggressive env _ i _
  · rw [crawlRun_mem_tag env targets i h (CrawlEv.bust .light i) rfl]
    exact stepEvs_mem_bustLight env _ i _

theorem crawl_cache_bust_policy_witness :
    (CrawlEv.bust .aggressive 0 ∈ (crawlRun envW targetsW).events ↔
      (stateBefore envW targetsW 0).currentTrack ≠ some (targetsW.get ⟨0, by decide⟩).track) ∧
    (CrawlEv.bust .light 0 ∈ (crawlRun envW targetsW).events ↔
      ((stateBefore envW targetsW 0).currentTrack = some (targetsW.get ⟨0, by decide⟩).track ∧
        0 % 8 = 0)) :=
  crawl_cache_bust_policy envW targetsW 0 (by decide)

/-- Whether target `i` is a same-track navigation, i.e. its track equals the
current track at that point (which is the previous target's track). -/
def sameTrackNav (targets : List RaceInfo) (i : Nat) : Bool :=
  match i with
  | 0 => false
  | Nat.succ j => decide ((targets[i]?).map RaceInfo.track = (targets[j]?).map RaceInfo.track)

/-- The 1-based ordinal of target `i` among the same-track navigations of
the crawl (the count of same-track navigations with index at most `i`). -/
def sameTrackOrd (targets : List RaceInfo) (i : Nat) : Nat :=
  (List.range (i + 1)).countP fun j => sameTrackNav targets j

/-- Crawl environment whose pages yield no runners (busts are performed
before extraction, so they are unaffected). -/
def envE : CrawlEnv where
  extract := fun _ => []
  retryExtract := fun _ => []

/-- One track change after the first target, then a long same-track run. -/
def targetsC7 : List RaceInfo :=
  [⟨"#card/a1", "Hove", "11:00", "1"⟩,
   ⟨"#card/b1", "Crayford", "11:04", "1"⟩,
   ⟨"#card/b2", "Crayford", "11:08", "2"⟩,
   ⟨"#card/b3", "Crayford", "11:12", "3"⟩,
   ⟨"#card/b4", "Crayford", "11:16", "4"⟩,
   ⟨"#card/b5", "Crayford", "11:20", "5"⟩,
   ⟨"#card/b6", "Crayford", "11:24", "6"⟩,
   ⟨"#card/b7", "Crayford", "11:28", "7"⟩,
   ⟨"#card/b8", "Crayford", "11:32", "8"⟩,
   ⟨"#card/b9", "Crayford", "11:36", "9"⟩]

/-- C7 counterexample: in the concrete crawl over `targetsC7`, target 9 is
the 8th same-track navigation yet receives no light bust, while target 8 is
only the 7th same-track navigation yet does receive one — the light-bust
schedule follows the overall loop index (`i % 8 == 0`), not the count of
same-track navigations, refuting the claim as stated. -/
theorem crawl_light_bust_schedule_counterexample :
    sameTrackNav targetsC7 9 = true ∧ sameTrackOrd targetsC7 9 = 8 ∧
    CrawlEv.bust .light 9 ∉ (crawlRun envE targetsC7).events ∧
    sameTrackNav targetsC7 8 = true ∧ sameTrackOrd targetsC7 8 = 7 ∧
    CrawlEv.bust .light 8 ∈ (crawlRun envE targetsC7).events := by
  refine ⟨by decide, by decide, by decide, by decide, by decide, by decide⟩

/-! ### Dog statistics fetcher (DogStatsExtractor)

The per-key fetch `_get_dog_stats_with_retry` loops `attempt` over
`range(max_retries)` (3 attempts), with status-specific handlers for
exceptions escaping `_get_dog_stats`.  `_get_dog_stats` itself wraps its
whole body in `try ... except Exception: return None`, so in this code no
exception ever reaches the retry loop's handlers; they are modelled all the
same, over an abstract call result.  Delays are rationals; the statistics
rows are opaque strings. -/

/-- Exceptions that can escape the body of `_get_dog_stats`
(`raise_for_status` HTTP errors, other request exceptions, anything else). -/
inductive PyErr
  | httpError (status : Nat)
  | requestErr
  | otherErr
deriving DecidableEq

/-- Embedding of `_get_dog_stats`: given the outcome of its body (the HTTP
request plus parse), any exception is caught and turned into `None`. -/
def getDogStats (body : Except PyErr (Option (List String))) : Option (List String) :=
  match body with
  | .ok v => v
  | .error _ => none

/-- Embedding of `_adjust_for_blocking`'s delay update:
`request_delay = min(request_delay * 1.5, 10.0)` (the header rotation has no
effect on the delay). -/
def adjustForBlocking (d : ℚ) : ℚ := min (d * (3 / 2)) 10

/-- Observable outcome of one `_get_dog_stats_with_retry` call: the returned
value, the number of attempts (calls of `_get_dog_stats`), the sleeps
performed inside the retry loop, and the final shared `request_delay`. -/
structure RetryTrace where
  result : Option (List String)
  attempts : Nat
  sleeps : List ℚ
  finalDelay : ℚ
deriving DecidableEq

/-- The retry loop of `_get_dog_stats_with_retry`, one constructor case per
handler: 403 adjusts the shared delay and waits `delay * (attempt + 2)`;
429 waits `delay * backoff_factor ^ (attempt + 1)` plus jitter; 404 returns
`None` immediately; other HTTP errors and request exceptions wait
`delay * (attempt + 1)`; any other exception returns `None` immediately.
`call attempt` is the result of the `try` block at the given attempt;
`fuel` is the number of remaining loop iterations (initially
`max_retries`). -/
def retryGo (call : Nat → Except PyErr (Option (List String))) (jitter : Nat → ℚ)
    (maxRetries : Nat) :
    Nat → Nat → ℚ → List ℚ → RetryTrace
  | 0, attempt, delay, sleeps => ⟨none, attempt, sleeps.reverse, delay⟩
  | fuel + 1, attempt, delay, sleeps =>
    match call attempt with
    | .ok v => ⟨v, attempt + 1, sleeps.reverse, delay⟩
    | .error (.httpError status) =>
      if status = 403 then
        if attempt < maxRetries - 1 then
          let delay2 := adjustForBlocking delay
          retryGo call jitter maxRetries fuel (attempt + 1) delay2
            ((delay2 * (attempt + 2 : ℚ)) :: sleeps)
        else ⟨none, attempt + 1, sleeps.reverse, delay⟩
      else if status = 429 then
        if attempt < maxRetries - 1 then
          retryGo call jitter maxRetries fuel (attempt + 1) delay
            ((delay * (2 : ℚ) ^ (attempt + 1) + jitter attempt) :: sleeps)
        else ⟨none, attempt + 1, sleeps.reverse, delay⟩
      else if status = 404 then ⟨none, attempt + 1, sleeps.reverse, delay⟩
      else
        if attempt < maxRetries - 1 then
          retryGo call jitter maxRetries fuel (attempt + 1) delay
            ((delay * (attempt + 1 : ℚ)) :: sleeps)
        else ⟨none, attempt + 1, sleeps.reverse, delay⟩
    | .error .requestErr =>
      if attempt < maxRetries - 1 then
        retryGo call jitter maxRetries fuel (attempt + 1) delay
          ((delay * (attempt + 1 : ℚ)) :: sleeps)
      else ⟨none, attempt + 1, sleeps.reverse, delay⟩
    | .error .otherErr => ⟨none, attempt + 1, sleeps.reverse, delay⟩

/-- Embedding of `_get_dog_stats_with_retry` as it actually composes with
`_get_dog_stats`: the try-block value is `getDogStats` of the body outcome
for that attempt, which never raises, so the handlers are unreachable.
`max_retries = 3` as set in `__init__`. -/
def getDogStatsWithRetry (body : Nat → Except PyErr (Option (List String)))
    (jitter : Nat → ℚ) (delay0 : ℚ) : RetryTrace :=
  retryGo (fun attempt => Except.ok (getDogStats (body attempt))) jitter 3 3 0 delay0 []

/-- The sequential (`max_workers == 1`) branch of `extract_dog_stats`: each
unique dog key is fetched in turn with the shared `request_delay` threaded
through. -/
def extractDogStatsSeq (body : String → Nat → Except PyErr (Option (List String)))
    (jitter : String → Nat → ℚ) : List String → ℚ → List (String × RetryTrace)
  | [], _ => []
  | k :: rest, delay =>
    let t := getDogStatsWithRetry (body k) (jitter k) delay
    (k, t) :: extractDogStatsSeq body jitter rest t.finalDelay

theorem getDogStatsWithRetry_eq (body : Nat → Except PyErr (Option (List String)))
    (jitter : Nat → ℚ) (delay0 : ℚ) :
    getDogStatsWithRetry body jitter delay0 = ⟨getDogStats (body 0), 1, [], delay0⟩ := rfl

/-- C3: every per-key fetch performs at most 3 attempts; a 404 response
terminates the key after exactly one attempt, with no retry, no sleep inside
the retry loop, and no delay adjustment; and the sequential fetch of the two
keys Fast Fern and Swift Sal, both answering 404, maps both keys to a
not-found result (`none`) with exactly one attempt each. -/
theorem dog_stats_retry_ceiling (body : Nat → Except PyErr (Option (List String)))
    (jitter : Nat → ℚ) (delay0 : ℚ) :
    (getDogStatsWithRetry body jitter delay0).attempts ≤ 3 ∧
    (body 0 = .error (.httpError 404) →
      getDogStatsWithRetry body jitter delay0 = ⟨none, 1, [], delay0⟩) ∧
    (∀ (j : String → Nat → ℚ) (d0 : ℚ),
      extractDogStatsSeq (fun _ _ => .error (.httpError 404)) j
          ["Fast Fern", "Swift Sal"] d0 =
        [("Fast Fern", ⟨none, 1, [], d0⟩), ("Swift Sal", ⟨none, 1, [], d0⟩)]) := by
  refine ⟨?_, ?_, ?_⟩
  · rw [getDogStatsWithRetry_eq]
    exact Nat.le_of_lt (by norm_num)
  · intro h404
    rw [getDogStatsWithRetry_eq, h404]
    rfl
  · intro j d0
    rfl

theorem dog_stats_retry_ceiling_witness :
    (getDogStatsWithRetry (fun _ => .error (.httpError 404)) (fun _ => 1) 2).attempts ≤ 3 ∧
    getDogStatsWithRetry (fun _ => .error (.httpError 404)) (fun _ => 1) 2 = ⟨none, 1, [], 2⟩ :=
  ⟨(dog_stats_retry_ceiling (fun _ => .error (.httpError 404)) (fun _ => 1) 2).1,
    (dog_stats_retry_ceiling (fun _ => .error (.httpError 404)) (fun _ => 1) 2).2.1 rfl⟩

/-- The shared `request_delay` after `n` blocking adaptations, starting from
the initial 2.0 seconds set in `__init__`. -/
def delayAfter : Nat → ℚ
  | 0 => 2
  | n + 1 => adjustForBlocking (delayAfter n)

theorem adjustForBlocking_mono (d : ℚ) (h2 : 2 ≤ d) (h10 : d ≤ 10) :
    d ≤ adjustForBlocking d ∧ adjustForBlocking d ≤ 10 := by
  unfold adjustForBlocking
  constructor
  · refine le_min ?_ h10
    nlinarith
  · exact min_le_right _ _

theorem delayAfter_bounds (n : Nat) : 2 ≤ delayAfter n ∧ delayAfter n ≤ 10 := by
  induction n with
  | zero => norm_num [delayAfter]
  | succ m ih =>
    have h := adjustForBlocking_mono (delayAfter m) ih.1 ih.2
    exact ⟨le_trans ih.1 h.1, h.2⟩

/-- The final shared delay after the retry loop, starting inside the
reachable range, never decreases and never exceeds the cap. -/
theorem retryGo_delay_mono (call : Nat → Except PyErr (Option (List String)))
    (jitter : Nat → ℚ) (maxRetries : Nat) (fuel : Nat) :
    ∀ (attempt : Nat) (d : ℚ) (sleeps : List ℚ), 2 ≤ d → d ≤ 10 →
      d ≤ (retryGo call jitter maxRetries fuel attempt d sleeps).finalDelay ∧
      (retryGo call jitter maxRetries fuel attempt d sleeps).finalDelay ≤ 10 := by
  induction fuel with
  | zero => intro attempt d sleeps h2 h10; exact ⟨le_refl d, h10⟩
  | succ n ih =>
    intro attempt d sleeps h2 h10
    have hadj := adjustForBlocking_mono d h2 h10
    cases hc : call attempt with
    | ok v =>
      simp only [retryGo, hc]
      exact ⟨le_refl d, h10⟩
    | error e =>
      cases e with
      | httpError status =>
        simp only [retryGo, hc]
        by_cases hs1 : status = 403
        · simp only [hs1, if_true]
          split
          · have := ih (attempt + 1) (adjustForBlocking d)
              ((adjustForBlocking d * (attempt + 2 : ℚ)) :: sleeps)
              (le_trans h2 hadj.1) hadj.2
            exact ⟨le_trans hadj.1 this.1, this.2⟩
          · exact ⟨le_refl d, h10⟩
        · simp only [hs1, if_false]
          by_cases hs2 : status = 429
          · simp only [hs2, if_true]
            split
            · exact ih (attempt + 1) d _ h2 h10
            · exact ⟨le_refl d, h10⟩
          · simp only [hs2, if_false]
            by_cases hs3 : status = 404
            · simp only [hs3, if_true]
              exact ⟨le_refl d, h10⟩
            · simp only [hs3, if_false]
              split
              · exact ih (attempt + 1) d _ h2 h10
              · exact ⟨le_refl d, h10⟩
      | requestErr =>
        simp only [retryGo, hc]
        split
        · exact ih (attempt + 1) d _ h2 h10
        · exact ⟨le_refl d, h10⟩
      | otherErr =>
        simp only [retryGo, hc]
        exact ⟨le_refl d, h10⟩

/-- C8: the shared base request delay is only ever increased — each blocking
adaptation multiplies it by 1.5 and caps it at 10.0 — so across any number
of adaptations (the only writes to `request_delay` in one fetch invocation)
the delay is monotonically non-decreasing and never exceeds the cap; in
particular the retry loop itself never decreases it. -/
theorem dog_stats_delay_monotone :
    (∀ d : ℚ, 2 ≤ d → d ≤ 10 →
      d ≤ adjustForBlocking d ∧ adjustForBlocking d ≤ 10) ∧
    (∀ m n : Nat, m ≤ n → delayAfter m ≤ delayAfter n) ∧
    (∀ n : Nat, 2 ≤ delayAfter n ∧ delayAfter n ≤ 10) ∧
    (∀ (call : Nat → Except PyErr (Option (List String))) (jitter : Nat → ℚ)
        (fuel attempt : Nat) (d : ℚ) (sleeps : List ℚ), 2 ≤ d → d ≤ 10 →
      d ≤ (retryGo call jitter 3 fuel attempt d sleeps).finalDelay) := by
  refine ⟨adjustForBlocking_mono, ?_, delayAfter_bounds, ?_⟩
  · intro m n hmn
    induction n with
    | zero =>
      have : m = 0 := by omega
      simp [this]
    | succ k ih =>
      rcases Nat.lt_or_ge m (k + 1) with h | h
      · have h1 := ih (by omega)
        have h2 := adjustForBlocking_mono (delayAfter k) (delayAfter_bounds k).1
          (delayAfter_bounds k).2
        exact le_trans h1 h2.1
      · have : m = k + 1 := by omega
        simp [this]
  · intro call jitter fuel attempt d sleeps h2 h10
    exact (retryGo_delay_mono call jitter 3 fuel attempt d sleeps h2 h10).1

theorem dog_stats_delay_monotone_witness :
    ((3 : ℚ) ≤ adjustForBlocking 3 ∧ adjustForBlocking 3 ≤ 10) ∧
    delayAfter 1 ≤ delayAfter 2 :=
  ⟨dog_stats_delay_monotone.1 3 (by norm_num) (by norm_num),
    dog_stats_delay_monotone.2.1 1 2 (by norm_num)⟩

/-! ### Date-range and lifecycle claims -/

/-- C4: for start ≤ end the historical enumeration visits each calendar date
in the inclusive range exactly once, in ascending order; and a single date
supplied as start only, end only, or as both bounds normalises to that date
filling both bounds and enumerates exactly that one date. -/
theorem historical_dates_enumeration :
    (∀ s e : Nat, s ≤ e →
      (∀ d : Nat, (iterDatesInclusive s e).count d = if s ≤ d ∧ d ≤ e then 1 else 0) ∧
      List.Chain' (· < ·) (iterDatesInclusive s e)) ∧
    (∀ d : Nat,
      normalizeDates (some d) none = .ok (d, d) ∧
      normalizeDates none (some d) = .ok (d, d) ∧
      normalizeDates (some d) (some d) = .ok (d, d) ∧
      iterDatesInclusive d d = [d]) := by
  constructor
  · intro s e hse
    exact ⟨fun d => iterDatesInclusive_count s e d hse, iterDatesInclusive_chain s e⟩
  · intro d
    exact ⟨rfl, rfl, rfl, iterDatesInclusive_single d⟩

theorem historical_dates_enumeration_witness :
    ((iterDatesInclusive 3 5).count 4 = if 3 ≤ 4 ∧ 4 ≤ 5 then 1 else 0) ∧
    iterDatesInclusive 7 7 = [7] :=
  ⟨(historical_dates_enumeration.1 3 5 (by norm_num)).1 4,
    (historical_dates_enumeration.2 7).2.2.2⟩

/-- C10: a reversed date pair (end before start) is swapped by the iterator
and yields exactly the same ascending inclusive sequence as the correctly
ordered pair — never empty, never descending (the embedding is total, so no
exception is possible once the two dates parse). -/
theorem historical_dates_reversed (s e : Nat) (h : e < s) :
    iterDatesInclusive s e = iterDatesInclusive e s ∧
    iterDatesInclusive s e ≠ [] ∧
    List.Chain' (· < ·) (iterDatesInclusive s e) :=
  ⟨iterDatesInclusive_swap s e, iterDatesInclusive_ne_nil s e,
    iterDatesInclusive_chain s e⟩

theorem historical_dates_reversed_witness :
    iterDatesInclusive 9 6 = iterDatesInclusive 6 9 ∧
    iterDatesInclusive 9 6 ≠ [] ∧
    List.Chain' (· < ·) (iterDatesInclusive 9 6) :=
  historical_dates_reversed 9 6 (by norm_num)

/-- C5 counterexample: a historical call with neither date returns normally
with the failure signal `None` — the internal `ValueError` is caught by the
function's own `except Exception` handler, so no error is raised to the
caller (the claim's "an error is raised to the caller" is false), although
indeed no navigation occurs. -/
theorem historical_no_date_counterexample :
    extractRaceData .ok "historical" none none (.ret 0 []) =
      (Except.ok none, [DriverEv.createDriver, DriverEv.quitDriver]) := rfl

/-- C5 amended: a historical-mode call with neither date raises a
`ValueError` internally before any navigation, but the function's top-level
exception handler catches it, so the caller receives the failure signal
`None` (not an exception) and no navigation ever occurs. -/
theorem historical_no_date_returns_none (setup : SetupOutcome) (body : BodyOutcome) :
    (extractRaceData setup "historical" none none body).1 = Except.ok none ∧
    DriverEv.navigate ∉ (extractRaceData setup "historical" none none body).2 := by
  cases setup <;> cases body <;> simp [extractRaceData, normalizeDates]

theorem quit_trace_shape (navs : Nat) :
    (DriverEv.createDriver ::
        (List.replicate navs DriverEv.navigate ++ [DriverEv.quitDriver])).count
      DriverEv.quitDriver = 1 ∧
    (DriverEv.createDriver ::
        (List.replicate navs DriverEv.navigate ++ [DriverEv.quitDriver])).getLast? =
      some DriverEv.quitDriver := by
  constructor
  · simp [List.count_cons, List.count_append, List.count_replicate]
  · show ((DriverEv.createDriver :: List.replicate navs DriverEv.navigate) ++
      [DriverEv.quitDriver]).getLast? = some DriverEv.quitDriver
    exact List.getLast?_concat _

/-- C9: whenever the browser session was created, `driver.quit()` runs
exactly once, as the final action before `extract_race_data` returns —
regardless of mode, date arguments, or whether the body returned normally or
raised. -/
theorem crawl_session_always_closed (setup : SetupOutcome) (mode : String)
    (sd ed : Option Nat) (body : BodyOutcome)
    (h : sessionCreated setup = true) :
    (extractRaceData setup mode sd ed body).2.count DriverEv.quitDriver = 1 ∧
    (extractRaceData setup mode sd ed body).2.getLast? = some DriverEv.quitDriver := by
  cases setup with
  | chromeFail => exact absurd h (by simp [sessionCreated])
  | scriptFail =>
    refine ⟨?_, ?_⟩
    · show ([DriverEv.createDriver, DriverEv.quitDriver]).count DriverEv.quitDriver = 1
      decide
    · show ([DriverEv.createDriver, DriverEv.quitDriver]).getLast? = some DriverEv.quitDriver
      decide
  | ok =>
    by_cases hm : mode = "historical"
    · cases sd <;> cases ed <;> cases body <;>
        simp only [extractRaceData, hm, if_true, normalizeDates] <;>
          first
            | exact ⟨by decide, by decide⟩
            | exact quit_trace_shape _
    · cases body <;>
        simp only [extractRaceData, hm, if_false] <;>
          exact quit_trace_shape _

theorem crawl_session_always_closed_witness :
    (extractRaceData .ok "today" none none (.ret 2 ["row"])).2.count
      DriverEv.quitDriver = 1 ∧
    (extractRaceData .ok "today" none none (.ret 2 ["row"])).2.getLast? =
      some DriverEv.quitDriver :=
  crawl_session_always_closed .ok "today" none none (.ret 2 ["row"]) rfl
